import Mathlib

/-!
Verification of the QEMU VM control MCP server (src/server.py).

Shallow embedding conventions:
- Remote command execution (asyncssh, run_vm_cmd) is modelled by an oracle
  of type String -> Except String String: .ok is the command output, .error
  is a raised exception rendered as its message string.
- Local file writes for the activity log are modelled by an append oracle
  String -> Except String Unit (.error models a raised IOError).
- Python strings are Lean Strings; Python len counts code points, matching
  String.length.  Python int is Int.  Python floats never influence any claim
  checked here; the seconds field of a wait action is carried as the textual
  form of the float (its repr), which is all the code ever does with it in a
  result entry.
- Python dicts used as action descriptors are modelled as a structure whose
  fields carry the defaults that dict.get supplies for a missing key.
- Helper functions named py* reimplement the exact Python string primitives
  the source uses (strip, lstrip with a cut set, split on a newline, upper,
  lower, slicing, str.replace of the quote character, substring test,
  code-point string ordering used by sorted()).
-/

/-- Python whitespace set used by str.strip (space, tab, newline, carriage
return, vertical tab, form feed). -/
def pyIsSpace (c : Char) : Bool :=
  c = ' ' ∨ c = '\t' ∨ c = '\n' ∨ c = '\r' ∨ c = '\x0B' ∨ c = '\x0C'

/-- Model of Python str.strip() with no arguments. -/
def pyStrip (s : String) : String :=
  ⟨((s.data.dropWhile pyIsSpace).reverse.dropWhile pyIsSpace).reverse⟩

/-- Model of Python str.lstrip with the cut set of the characters hash and
space, as in lstrip applied to the two-character string hash-space: drops
every leading character that is a hash or a space. -/
def pyLstripHS (s : String) : String :=
  ⟨s.data.dropWhile (fun c => c = '#' ∨ c = ' ')⟩

/-- Model of Python str.upper restricted to ASCII (the levels used are
ASCII). -/
def pyUpper (s : String) : String := ⟨s.data.map Char.toUpper⟩

/-- Model of Python str.lower restricted to ASCII (key names). -/
def pyLower (s : String) : String := ⟨s.data.map Char.toLower⟩

/-- Model of Python s[:n] slicing (by code point). -/
def pyTake (n : Nat) (s : String) : String := ⟨s.data.take n⟩

/-- Splitting a character list at newlines, keeping empty pieces; the
result is never the empty list. -/
def splitNLAux : List Char → List (List Char)
  | [] => [[]]
  | c :: cs =>
    let acc := splitNLAux cs
    if c = '\n' then [] :: acc
    else
      match acc with
      | [] => [[c]]
      | h :: t => (c :: h) :: t

/-- Model of Python str.split on a single newline separator, the only split
the source performs: every occurrence separates, empty pieces are kept, and
the result is never the empty list. -/
def pySplitNewline (s : String) : List String :=
  (splitNLAux s.data).map (fun l => ⟨l⟩)

/-- Does the first list occur as an initial segment of the second? -/
def listStarts : List Char → List Char → Bool
  | [], _ => true
  | _ :: _, [] => false
  | p :: ps, c :: cs => p = c && listStarts ps cs

/-- Does the pattern occur as a contiguous run anywhere in the list? -/
def subMatch (pat : List Char) : List Char → Bool
  | [] => listStarts pat []
  | c :: cs => listStarts pat (c :: cs) || subMatch pat cs

/-- Model of the Python membership test pat in s on strings. -/
def strContains (s pat : String) : Bool := subMatch pat.data s.data

/-- Model of Python str.endswith, used for the glob on advice markdown
files. -/
def pyEndsWith (s pat : String) : Bool :=
  listStarts pat.data.reverse s.data.reverse

/-- Code-point lexicographic order on character lists, as Python compares
strings. -/
def listCharLt : List Char → List Char → Bool
  | [], [] => false
  | [], _ :: _ => true
  | _ :: _, [] => false
  | a :: as, b :: bs =>
    if a.toNat < b.toNat then true
    else if b.toNat < a.toNat then false
    else listCharLt as bs

/-- Python string comparison (by code point), the order used by sorted(). -/
def pyStrLt (a b : String) : Bool := listCharLt a.data b.data

/-- Model of dict.get on a small literal dict: first matching key wins. -/
def pyDictGet {α : Type} (kvs : List (String × α)) (k : String) : Option α :=
  (kvs.find? (fun p => p.1 == k)).map (fun p => p.2)

/-- Rendering of an optional string the way a Python f-string renders the
value of dict.get for a possibly missing key: None prints as None, a string
prints verbatim. -/
def pyOptStr : Option String → String
  | none => "None"
  | some s => s

/-- Rendering of a Python list of strings by str(), with each element in
single quotes (elements used here never need escaping). -/
def pyStrList (l : List String) : String :=
  "[" ++ String.intercalate ", " (l.map (fun k => "\x27" ++ k ++ "\x27")) ++ "]"

/-- Model of Python text.replace applied to the double-quote character with
a backslash-quote replacement, the only replace the source performs. -/
def pyEscapeQuotes (s : String) : String :=
  ⟨(s.data.map (fun c => if c = '\"' then ['\\', '\"'] else [c])).flatten⟩

/-- Model of Python pathlib Path.stem: the final component without its last
extension. Only reached on an advice file whose stripped content splits to
an empty line list, which cannot happen, but the source has the branch. -/
def pyStem (s : String) : String :=
  let r := s.data.reverse
  if '.' ∈ r then ⟨((r.dropWhile (fun c => c ≠ '.')).drop 1).reverse⟩ else s

/-- The remote display identifier, resolved once at startup; the model uses
the default configuration value of the source. -/
def VM_DISPLAY : String := ":0"

/-- A loosely typed action descriptor, mirroring the dict elements of a
run_actions batch.  Each field carries the default that dict.get supplies
in the source for a missing key; the action field is None when the dict has
no action key at all.  The seconds field of a wait action is carried as the
textual form of the Python float, the only use the code makes of it. -/
structure ActionDef where
  action : Option String := none
  keys : List String := []
  text : String := ""
  button : String := "left"
  count : Int := 1
  x : Int := 0
  y : Int := 0
  mode : String := "absolute"
  seconds : String := "0.5"
deriving DecidableEq, Repr

/-- The button-index dict of the source: left=1, middle=2, right=3. -/
def clickButtonMap : List (String × Int) := [("left", 1), ("middle", 2), ("right", 3)]

/-- The xdotool key-combo command for an already joined combo token. -/
def keyCmd (combo : String) : String :=
  "DISPLAY=" ++ VM_DISPLAY ++ " xdotool key " ++ combo

/-- The xdotool typing command for already escaped text, with the fixed
10ms per-character delay of the source. -/
def typeCmd (escaped : String) : String :=
  "DISPLAY=" ++ VM_DISPLAY ++ " xdotool type --delay 10 \"" ++ escaped ++ "\""

/-- The xdotool click command for a repeat count and a button index. -/
def clickCmd (count btn : Int) : String :=
  "DISPLAY=" ++ VM_DISPLAY ++ " xdotool click --repeat " ++
    toString count ++ " " ++ toString btn

/-- The xdotool absolute pointer-move command. -/
def moveCmdAbs (x y : Int) : String :=
  "DISPLAY=" ++ VM_DISPLAY ++ " xdotool mousemove --sync " ++
    toString x ++ " " ++ toString y

/-- The xdotool relative pointer-move command. -/
def moveCmdRel (x y : Int) : String :=
  "DISPLAY=" ++ VM_DISPLAY ++ " xdotool mousemove_relative --sync " ++
    toString x ++ " " ++ toString y

/-- Leading numbering of every entry the batch loop appends: the 1-indexed
position followed by a dot and a space. -/
def entryNum (i : Nat) : String := toString (i + 1) ++ ". "

/-- The entry the except branch of the batch loop appends for element i. -/
def errorEntry (i : Nat) (kind e : String) : String :=
  entryNum i ++ "ERROR in " ++ kind ++ ": " ++ e

/-- The shared try/except shape of each recognized remote-calling branch of
the batch loop: run the command; on success append the success entry, on a
raised exception append the error entry and signal the fail-stop flag.  The
middle component lists the command passed to run_vm_cmd. -/
def runStepRemote (exec : String → Except String String) (i : Nat)
    (kind entryOk cmd : String) : String × List String × Bool :=
  match exec cmd with
  | .ok _ => (entryOk, [cmd], false)
  | .error e => (errorEntry i kind e, [cmd], true)

/-- Processing of one element of a run_actions batch, mirroring the
if/elif chain of the source: the produced entry, the commands passed to
run_vm_cmd for it, and whether an exception was raised (which stops the
batch).  Unknown kinds and wait make no remote call and never raise. -/
def runActionsStep (exec : String → Except String String) (i : Nat)
    (a : ActionDef) : String × List String × Bool :=
  if a.action = some "press_keys" then
    runStepRemote exec i "press_keys"
      (entryNum i ++ "press_keys " ++ pyStrList a.keys)
      (keyCmd (String.intercalate "+" (a.keys.map pyLower)))
  else if a.action = some "type_text" then
    runStepRemote exec i "type_text"
      (entryNum i ++ "type_text (" ++ toString a.text.length ++ " chars)")
      (typeCmd (pyEscapeQuotes a.text))
  else if a.action = some "click" then
    runStepRemote exec i "click"
      (entryNum i ++ "click " ++ a.button ++ " x" ++ toString a.count)
      (clickCmd a.count ((pyDictGet clickButtonMap a.button).getD 1))
  else if a.action = some "move_mouse" then
    runStepRemote exec i "move_mouse"
      (entryNum i ++ "move_mouse (" ++ toString a.x ++ ", " ++ toString a.y ++
        ") [" ++ a.mode ++ "]")
      (if a.mode = "absolute" then moveCmdAbs a.x a.y else moveCmdRel a.x a.y)
  else if a.action = some "wait" then
    (entryNum i ++ "wait " ++ a.seconds ++ "s", [], false)
  else
    (entryNum i ++ "UNKNOWN ACTION: " ++ pyOptStr a.action, [], false)

/-- The batch loop of run_actions from starting index i: accumulates the
entry list and the commands passed to run_vm_cmd, breaking after the first
element on which an exception was raised. -/
def runActionsAux (exec : String → Except String String) :
    Nat → List ActionDef → List String × List String
  | _, [] => ([], [])
  | i, a :: rest =>
    let s := runActionsStep exec i a
    if s.2.2 then ([s.1], s.2.1)
    else
      let r := runActionsAux exec (i + 1) rest
      (s.1 :: r.1, s.2.1 ++ r.2)

/-- The run_actions tool: the returned summary string and the commands
passed to run_vm_cmd over the whole batch.  The trailing activity-log call
of the source is a no-op without an active project and never alters the
return value on success; it is modelled separately with the logging
claims. -/
def run_actions (exec : String → Except String String)
    (actions : List ActionDef) : String × List String :=
  let r := runActionsAux exec 0 actions
  ("Executed " ++ toString r.1.length ++ " actions:\n" ++
    String.intercalate "\n" r.1, r.2)

/-- The Project log append of the source (the _log method): formats one
log line from the current UTC timestamp, the level and the message, and
appends it to logs/project.log.  The file append is an oracle whose error
is a raised IOError. -/
def Project_log (append : String → Except String Unit) (ts message level : String) :
    Except String Unit :=
  append ("[" ++ ts ++ "] [" ++ level ++ "] " ++ message ++ "\n")

/-- The activity recorder of the source (_log_tool_call): a no-op when no
project is active; otherwise formats the tool name, the parameters (values
over 100 characters truncated with an ellipsis) and an optional result
(truncated at 200 characters, skipped when absent or empty by Python
truthiness), and appends one INFO line.  Parameter values arrive already
rendered by str. -/
def log_tool_call (append : String → Except String Unit) (project : Option Unit)
    (ts tool_name : String) (params : List (String × String))
    (result : Option String) : Except String Unit :=
  match project with
  | none => .ok ()
  | some _ =>
    let param_strs := params.map (fun p =>
      p.1 ++ "=" ++ (if p.2.length > 100 then pyTake 100 p.2 ++ "..." else p.2))
    let params_str := String.intercalate ", " param_strs
    let log_msg := "TOOL: " ++ tool_name ++ "(" ++ params_str ++ ")"
    let log_msg :=
      match result with
      | some r =>
        if r = "" then log_msg
        else log_msg ++ " -> " ++ (if r.length ≤ 200 then r else pyTake 200 r ++ "...")
      | none => log_msg
    Project_log append ts log_msg "INFO"

/-- The move_mouse tool: validates the mode (raising ValueError before any
remote call for an unknown mode), runs the xdotool command, determines the
result string, then records the call in the activity log; an exception at
any stage propagates.  Returns the outcome and the commands passed to
run_vm_cmd. -/
def move_mouse (exec : String → Except String String)
    (append : String → Except String Unit) (project : Option Unit) (ts : String)
    (x y : Int) (mode : String) : Except String String × List String :=
  let cmdE : Except String String :=
    if mode = "absolute" then .ok (moveCmdAbs x y)
    else if mode = "relative" then .ok (moveCmdRel x y)
    else .error "mode must be \x27absolute\x27 or \x27relative\x27"
  match cmdE with
  | .error e => (.error e, [])
  | .ok cmd =>
    match exec cmd with
    | .error e => (.error e, [cmd])
    | .ok _ =>
      let result := "Mouse moved to (" ++ toString x ++ ", " ++ toString y ++
        ") [" ++ mode ++ "]"
      match log_tool_call append project ts "move_mouse"
          [("x", toString x), ("y", toString y), ("mode", mode)] none with
      | .error e => (.error e, [cmd])
      | .ok _ => (.ok result, [cmd])

/-- The click tool: validates the button against the button dict (raising
ValueError before any remote call for an unknown button), runs the xdotool
command, then logs and returns the confirmation. -/
def click (exec : String → Except String String)
    (append : String → Except String Unit) (project : Option Unit) (ts : String)
    (button : String) (count : Int) : Except String String × List String :=
  match pyDictGet clickButtonMap button with
  | none => (.error "button must be left/middle/right", [])
  | some n =>
    let cmd := clickCmd count n
    match exec cmd with
    | .error e => (.error e, [cmd])
    | .ok _ =>
      let result := "Clicked " ++ button ++ " x" ++ toString count
      match log_tool_call append project ts "click"
          [("button", button), ("count", toString count)] none with
      | .error e => (.error e, [cmd])
      | .ok _ => (.ok result, [cmd])

/-- The type_text tool: escapes embedded double quotes, runs the xdotool
type command with a fixed 10ms per-character delay, logs a masked rendering
of the text, and reports the typed character count. -/
def type_text (exec : String → Except String String)
    (append : String → Except String Unit) (project : Option Unit) (ts : String)
    (text : String) : Except String String × List String :=
  let escaped := pyEscapeQuotes text
  let cmd := typeCmd escaped
  match exec cmd with
  | .error e => (.error e, [cmd])
  | .ok _ =>
    let log_text :=
      if text.length ≤ 20 then text
      else pyTake 10 text ++ "...(" ++ toString text.length ++ " chars)"
    match log_tool_call append project ts "type_text" [("text", log_text)] none with
    | .error e => (.error e, [cmd])
    | .ok _ => (.ok ("Typed " ++ toString text.length ++ " characters"), [cmd])

/-- Result of a remote command run in non-raising mode (check=False). -/
structure RunResult where
  stdout : String
  stderr : String
  returncode : Int
deriving DecidableEq, Repr

/-- The ssh_execute tool: runs the command in non-raising mode, assembles
the STDOUT, STDERR and EXIT CODE sections of the in-band report (skipping
empty streams and a zero exit code), and converts any raised exception into
an in-band outcome string; it never raises.  The activity-log calls here do
not alter the return value (no active project is a no-op); a raised log
failure lands in the same except branch and is therefore also in-band. -/
def ssh_execute (run : String → Except String RunResult) (command : String) : String :=
  match run command with
  | .error e => "Error executing command: " ++ e
  | .ok r =>
    let parts : List String :=
      (if r.stdout ≠ "" then ["STDOUT:\n" ++ r.stdout] else []) ++
      (if r.stderr ≠ "" then ["STDERR:\n" ++ r.stderr] else []) ++
      (if r.returncode ≠ 0 then ["EXIT CODE: " ++ toString r.returncode] else [])
    if parts = [] then "Command completed (no output)"
    else String.intercalate "\n\n" parts

/-- One immediate child of the projects root directory as project_list
observes it: its name, whether it is a directory, and the state of its
metadata.json — absent, present but failing json.load or key access, or a
parsed JSON object of string fields (the shape _save_metadata writes). -/
structure DirEntry where
  name : String
  isDir : Bool := true
  metadataJson : Option (Option (List (String × String))) := none
deriving DecidableEq, Repr

/-- The in-memory Project record of the source; the path is carried as the
directory name under the projects root. -/
structure Project where
  name : String
  pathName : String
  created_at : String
  description : String := ""
deriving DecidableEq, Repr

/-- Rendering of a project path, as str of PROJECTS_DIR / name. -/
def projectsPath (dirName : String) : String := "data/projects/" ++ dirName

/-- Project.load: raises FileNotFoundError when metadata.json is absent,
propagates a json.load failure on an unparsable file, raises KeyError when
the name or created_at key is missing, and defaults a missing description
to the empty string.  Exception messages are abbreviated; only which
exception escapes is observable to the callers modelled here. -/
def Project.load (d : DirEntry) : Except String Project :=
  match d.metadataJson with
  | none => .error ("No metadata.json in " ++ projectsPath d.name)
  | some none => .error "JSONDecodeError"
  | some (some kvs) =>
    match pyDictGet kvs "name" with
    | none => .error "KeyError: name"
    | some n =>
      match pyDictGet kvs "created_at" with
      | none => .error "KeyError: created_at"
      | some c =>
        .ok { name := n, pathName := d.name, created_at := c,
              description := (pyDictGet kvs "description").getD "" }

/-- Ascending insertion by name under Python string order, the order of
sorted() over the paths yielded by iterdir (all share the root prefix, so
path order is name order; names in one directory are distinct). -/
def pyInsertDir (e : DirEntry) : List DirEntry → List DirEntry
  | [] => [e]
  | y :: ys => if pyStrLt e.name y.name then e :: y :: ys else y :: pyInsertDir e ys

/-- Model of sorted() over the entries of the projects root. -/
def pySortDirs (l : List DirEntry) : List DirEntry := l.foldr pyInsertDir []

/-- The project_list tool over the observed children of the projects root:
iterates them in reverse sorted order, considers only directories whose
metadata.json exists, renders a loadable one as a project line and one
whose load raises as an invalid line, and reports when nothing was
collected.  A directory without metadata.json fails the existence test and
produces no line at all. -/
def project_list (fs : List DirEntry) : String :=
  let dirs := (pySortDirs fs).reverse
  let projects := dirs.filterMap (fun d =>
    if d.isDir ∧ d.metadataJson.isSome then
      match Project.load d with
      | .ok p => some ("- " ++ p.name ++ " (" ++ p.created_at ++ "): " ++
          projectsPath p.pathName)
      | .error _ => some ("- (invalid): " ++ projectsPath d.name)
    else none)
  if projects = [] then "No projects found."
  else "Projects:\n" ++ String.intercalate "\n" projects

/-- Project.save_advice: sanitizes the title to alphanumerics, hyphen,
space and underscore (every other character becomes an underscore),
truncates it to 50 characters, and writes a new markdown file named by the
current UTC timestamp and the sanitized title, whose content is a heading
line with the raw title, a blank line, and the body.  Returns the (file
name, file content) pair added to the advice directory. -/
def save_advice (ts title content : String) : String × String :=
  let safe_title := pyTake 50
    ⟨title.data.map (fun c => if c.isAlphanum ∨ c = '-' ∨ c = ' ' ∨ c = '_' then c else '_')⟩
  (ts ++ "_" ++ safe_title ++ ".md",
   "# " ++ title ++ "\n\n" ++ content ++ "\n")

/-- One parsed advice entry as get_all_advice returns it. -/
structure Advice where
  title : String
  content : String
  file : String
deriving DecidableEq, Repr

/-- Ascending insertion of advice files by name under Python string order,
the order of sorted() over the glob results. -/
def pyInsertFile (e : String × String) :
    List (String × String) → List (String × String)
  | [] => [e]
  | y :: ys => if pyStrLt e.1 y.1 then e :: y :: ys else y :: pyInsertFile e ys

/-- Model of sorted() over the advice files of a project. -/
def pySortFiles (l : List (String × String)) : List (String × String) :=
  l.foldr pyInsertFile []

/-- Project.get_all_advice over the (file name, content) pairs of the
advice directory: globs the markdown files in sorted name order and parses
each one — strip the content, split it on newlines, take the first line
with every leading hash and space removed and surrounding whitespace
stripped as the title (falling back to the file stem on an empty line
list), and everything from the third line on, stripped, as the body. -/
def get_all_advice (files : List (String × String)) : List Advice :=
  ((pySortFiles (files.filter (fun f => pyEndsWith f.1 ".md"))).map (fun f =>
    let lines := pySplitNewline (pyStrip f.2)
    let title :=
      match lines with
      | [] => pyStem f.1
      | l0 :: _ => pyStrip (pyLstripHS l0)
    let body :=
      if lines.length > 2 then pyStrip (String.intercalate "\n" (lines.drop 2))
      else ""
    { title := title, content := body, file := f.1 }))

/-- The recent-lines slice of project_read_logs for a limit n, modelling
the Python slice with negative start index -n: for a positive n it keeps
the last n elements, for n at most zero it drops the first -n. -/
def pySliceFromNeg (n : Int) (l : List String) : List String :=
  if 0 < n then l.drop (l.length - n.toNat) else l.drop (-n).toNat

/-- The project_read_logs tool over the optional content of the log file:
reports the absence of the file, otherwise strips and splits the content,
keeps only lines containing the bracketed uppercased filter when a filter
is given (Python truthiness: the empty filter means no filtering), slices
to the last lines when the count exceeds the limit, and renders either the
no-entries message or the counted header with the lines. -/
def project_read_logs (logFile : Option String) (lines : Int)
    (level_filter : String) : String :=
  match logFile with
  | none => "No log entries yet."
  | some content =>
    let all0 := pySplitNewline (pyStrip content)
    let all_lines :=
      if level_filter = "" then all0
      else all0.filter (fun l => strContains l ("[" ++ pyUpper level_filter ++ "]"))
    let recent_lines :=
      if (all_lines.length : Int) > lines then pySliceFromNeg lines all_lines
      else all_lines
    if recent_lines = [] then
      "No log entries found" ++
        (if level_filter = "" then "" else " with level " ++ level_filter) ++ "."
    else
      "Log entries (" ++ toString recent_lines.length ++ " of " ++
        toString all_lines.length ++ " total):\n\n" ++
        String.intercalate "\n" recent_lines

/-- The line list project_read_logs computes before any filtering: the
stripped content split at newlines. -/
def readLogsAll (content : String) : List String :=
  pySplitNewline (pyStrip content)

/-- The recent-lines list project_read_logs computes for an unfiltered
read with limit n: the negative-start slice when the count exceeds the
limit, otherwise every line. -/
def readLogsRecent (content : String) (n : Int) : List String :=
  let all := readLogsAll content
  if (all.length : Int) > n then pySliceFromNeg n all else all

/-- A remote oracle on which every command succeeds with empty output. -/
def execOk : String → Except String String := fun _ => .ok ""

/-- A batch element typing the text hi. -/
def adTypeHi : ActionDef := { action := some "type_text", text := "hi" }

/-- The command the type_text branch builds for the text hi. -/
def typeHiCmd : String := "DISPLAY=:0 xdotool type --delay 10 \"hi\""

/-- A batch element with an unrecognized action kind. -/
def adUnknown : ActionDef := { action := some "bogus" }

/-- A batch element pressing the key a. -/
def adPressA : ActionDef := { action := some "press_keys", keys := ["a"] }

/-- A batch click element with every other field defaulted. -/
def adClickDefault : ActionDef := { action := some "click" }

/-- A batch wait element with the default duration. -/
def adWaitDefault : ActionDef := { action := some "wait" }

/-- The command the click branch builds for a default left single click. -/
def clickDefaultCmd : String := "DISPLAY=:0 xdotool click --repeat 1 1"

/-- A remote oracle raising exactly on the default click command. -/
def execFailClick : String → Except String String :=
  fun c => if c = clickDefaultCmd then .error "boom" else .ok ""

/-- A four-element batch whose third element is the first to raise under
execFailClick. -/
def batchC1 : List ActionDef := [adPressA, adTypeHi, adClickDefault, adWaitDefault]

/-- A projects root holding one loadable project directory and one
directory without any metadata.json. -/
def fsOmit : List DirEntry :=
  [{ name := "20250101-000000_a", isDir := true,
     metadataJson := some (some [("name", "a"), ("created_at", "20250101-000000")]) },
   { name := "zzz", isDir := true, metadataJson := none }]

/-- A projects root holding one loadable project directory, one directory
whose metadata.json exists but cannot be loaded, and one directory without
any metadata.json. -/
def fsAmend : List DirEntry :=
  [{ name := "20250101-000000_a", isDir := true,
     metadataJson := some (some [("name", "a"), ("created_at", "20250101-000000")]) },
   { name := "20250202-000000_b", isDir := true, metadataJson := some none },
   { name := "zzz_nometa", isDir := true, metadataJson := none }]

/-- A five-entry project log whose third entry is the only ERROR line. -/
def fiveLineLog : String :=
  "[t1] [INFO] a\n[t2] [INFO] b\n[t3] [ERROR] boom\n[t4] [INFO] c\n[t5] [DEBUG] d"

/-- A one-entry project log whose level tag was written in lowercase. -/
def lowerLevelLog : String := "[2025-01-01 00:00:00] [error] oops"

/-- A log append oracle on which every write raises an IOError. -/
def appendFail : String → Except String Unit := fun _ => .error "disk full"

/-- A log append oracle on which every write succeeds. -/
def appendOk : String → Except String Unit := fun _ => .ok ()

/-- A non-raising remote runner returning a failed command with stderr. -/
def runStub : String → Except String RunResult :=
  fun _ => .ok { stdout := "", stderr := "boom", returncode := 1 }

theorem splitNLAux_ne_nil (l : List Char) : splitNLAux l ≠ [] := by
  induction l with
  | nil => simp [splitNLAux]
  | cons c cs ih =>
    simp only [splitNLAux]
    split
    · simp
    · split
      · simp
      · simp

theorem pySplitNewline_ne_nil (s : String) : pySplitNewline s ≠ [] := by
  simp only [pySplitNewline, ne_eq, List.map_eq_nil_iff]
  exact splitNLAux_ne_nil s.data

theorem listStarts_append_of (p x y : List Char) (h : listStarts p x = true) :
    listStarts p (x ++ y) = true := by
  induction p generalizing x with
  | nil => simp [listStarts]
  | cons a as ih =>
    cases x with
    | nil => simp [listStarts] at h
    | cons b bs =>
      simp only [listStarts, Bool.and_eq_true, decide_eq_true_eq] at h
      simp only [List.cons_append, listStarts, Bool.and_eq_true, decide_eq_true_eq]
      exact ⟨h.1, ih bs h.2⟩

theorem pyEndsWith_append (a b pat : String) (h : pyEndsWith b pat = true) :
    pyEndsWith (a ++ b) pat = true := by
  unfold pyEndsWith at h ⊢
  rw [String.data_append, List.reverse_append]
  exact listStarts_append_of _ _ _ h

/-- C2 counterexample: a run_actions batch element with the unknown button
value bogus does NOT fail validation — the click branch defaults the
unknown button to index 1 and a remote command IS attempted (and executed
by the oracle), contradicting the claim that no remote call is made. -/
theorem run_actions_attempts_unknown_button :
    (run_actions execOk [{ action := some "click", button := "bogus" }]).2 =
      ["DISPLAY=:0 xdotool click --repeat 1 1"] ∧
    (run_actions execOk [{ action := some "move_mouse", mode := "bogus" }]).2 =
      ["DISPLAY=:0 xdotool mousemove_relative --sync 0 0"] := by
  exact ⟨rfl, rfl⟩

/-- C3 counterexample: on a root with one loadable project directory and
one directory without metadata.json, project_list reports only the valid
entry; the metadata-less directory is silently omitted and no (invalid)
entry appears, contradicting the claimed exactly-one-invalid-entry
output. -/
theorem project_list_no_metadata_omitted :
    project_list fsOmit =
      "Projects:\n- a (20250101-000000): data/projects/20250101-000000_a" ∧
    strContains (project_list fsOmit) "(invalid)" = false ∧
    strContains (project_list fsOmit) "zzz" = false := by
  exact ⟨rfl, by decide, by decide⟩

/-- C5 counterexample: type_text on the 12-character literal (He said,
space, quoted hi) escapes the quotes in the command but reports Typed 12
characters, not the claimed Typed 13 characters. -/
theorem type_text_counts_twelve :
    type_text execOk appendOk none "ts0" "He said \"hi\"" =
      (.ok "Typed 12 characters",
       ["DISPLAY=:0 xdotool type --delay 10 \"He said \\\"hi\\\"\""]) ∧
    ("Typed 12 characters" : String) ≠ "Typed 13 characters" := by
  exact ⟨rfl, by decide⟩

/-- C9 counterexample: with an active project and a log append that raises
an IOError, move_mouse propagates the IOError to the caller instead of the
already-determined result string — the remote move was performed, but the
caller does not receive the Mouse moved confirmation. -/
theorem move_mouse_log_failure_masks :
    (move_mouse execOk appendFail (some ()) "ts0" 1 2 "absolute").1 =
      .error "disk full" ∧
    (move_mouse execOk appendFail (some ()) "ts0" 1 2 "absolute").2 =
      ["DISPLAY=:0 xdotool mousemove --sync 1 2"] ∧
    (move_mouse execOk appendFail (some ()) "ts0" 1 2 "absolute").1 ≠
      .ok "Mouse moved to (1, 2) [absolute]" := by
  refine ⟨rfl, rfl, ?_⟩
  intro h
  rw [show (move_mouse execOk appendFail (some ()) "ts0" 1 2 "absolute").1 =
    .error "disk full" from rfl] at h
  exact Except.noConfusion h

/-- C3 amended: project_list walks the children of the projects root in
reverse name order; a directory whose metadata.json loads is a valid entry,
a directory whose metadata.json exists but fails to load is an (invalid)
entry, and a directory with no metadata.json at all is omitted.  On a root
with one loadable project, one corrupt-metadata directory and one
metadata-less directory, the output holds exactly the invalid entry (the
later name first) and the valid entry, and never mentions the omitted
directory. -/
theorem project_list_amended_thm :
    project_list fsAmend =
      "Projects:\n- (invalid): data/projects/20250202-000000_b\n- a (20250101-000000): data/projects/20250101-000000_a" ∧
    strContains (project_list fsAmend) "zzz_nometa" = false := by
  exact ⟨rfl, by decide⟩

/-- C5 amended: type_text on the literal He said "hi" escapes the embedded
quotes before embedding the literal in the xdotool command and reports
Typed 12 characters (the length of the literal), for any remote oracle on
which the command succeeds and with no active project. -/
theorem type_text_escapes_and_counts (exec : String → Except String String)
    (append : String → Except String Unit) (ts out : String)
    (h : exec (typeCmd "He said \\\"hi\\\"") = .ok out) :
    type_text exec append none ts "He said \"hi\"" =
      (.ok "Typed 12 characters", [typeCmd "He said \\\"hi\\\""]) := by
  have hesc : pyEscapeQuotes "He said \"hi\"" = "He said \\\"hi\\\"" := rfl
  simp only [type_text, hesc, h, log_tool_call]
  rfl

theorem type_text_escapes_and_counts_witness :
    execOk (typeCmd "He said \\\"hi\\\"") = .ok "" ∧
    type_text execOk appendOk none "ts1" "He said \"hi\"" =
      (.ok "Typed 12 characters", [typeCmd "He said \\\"hi\\\""]) :=
  ⟨rfl, type_text_escapes_and_counts execOk appendOk "ts1" "" rfl⟩

/-- C9 amended: with an active project, move_mouse performs the remote
move and determines its result string before the activity-log write is
attempted; when the log write succeeds the caller receives the result,
and when the log write raises an IOError that error propagates in place
of the result string while the remote effect has still been performed. -/
theorem move_mouse_logging_amended (exec : String → Except String String)
    (okApp badApp : String → Except String Unit) (ts : String) (x y : Int)
    (out em : String)
    (hexec : exec (moveCmdAbs x y) = .ok out)
    (hok : ∀ s, okApp s = .ok ())
    (hbad : ∀ s, badApp s = .error em) :
    move_mouse exec okApp (some ()) ts x y "absolute" =
      (.ok ("Mouse moved to (" ++ toString x ++ ", " ++ toString y ++ ") [absolute]"),
       [moveCmdAbs x y]) ∧
    move_mouse exec badApp (some ()) ts x y "absolute" =
      (.error em, [moveCmdAbs x y]) := by
  constructor
  · simp only [move_mouse, if_true, hexec, log_tool_call, Project_log, hok,
      String.append_assoc]
    rfl
  · simp only [move_mouse, if_true, hexec, log_tool_call, Project_log, hbad]

theorem move_mouse_logging_amended_witness :
    execOk (moveCmdAbs 1 2) = .ok "" ∧
    (move_mouse execOk appendOk (some ()) "ts2" 1 2 "absolute" =
      (.ok ("Mouse moved to (" ++ toString (1 : Int) ++ ", " ++ toString (2 : Int) ++
        ") [absolute]"), [moveCmdAbs 1 2]) ∧
     move_mouse execOk appendFail (some ()) "ts2" 1 2 "absolute" =
      (.error "disk full", [moveCmdAbs 1 2])) :=
  ⟨rfl, move_mouse_logging_amended execOk appendOk appendFail "ts2" 1 2 "" "disk full"
    rfl (fun _ => rfl) (fun _ => rfl)⟩

theorem pyDictGet_button_none (button : String)
    (h1 : button ≠ "left") (h2 : button ≠ "middle") (h3 : button ≠ "right") :
    pyDictGet clickButtonMap button = none := by
  have e1 : (("left" : String) == button) = false := beq_eq_false_iff_ne.mpr (Ne.symm h1)
  have e2 : (("middle" : String) == button) = false := beq_eq_false_iff_ne.mpr (Ne.symm h2)
  have e3 : (("right" : String) == button) = false := beq_eq_false_iff_ne.mpr (Ne.symm h3)
  simp [pyDictGet, clickButtonMap, List.find?, e1, e2, e3]

/-- C2 amended: the single-action tools validate — move_mouse with an
unknown mode and click with an unknown button raise a ValueError before
any remote command is attempted (the attempted-command list is empty) —
but a run_actions batch element does not: an unknown button silently
defaults to button index 1 and an unknown mode is treated as relative, and
in both cases the remote command IS attempted. -/
theorem unknown_mode_button_validation (exec : String → Except String String)
    (append : String → Except String Unit) (project : Option Unit) (ts : String)
    (x y count : Int) (mode button : String) (i : Nat) (a b : ActionDef)
    (hmode : mode ≠ "absolute" ∧ mode ≠ "relative")
    (hbutton : button ≠ "left" ∧ button ≠ "middle" ∧ button ≠ "right")
    (ha : a.action = some "click" ∧
      a.button ≠ "left" ∧ a.button ≠ "middle" ∧ a.button ≠ "right")
    (hb : b.action = some "move_mouse" ∧ b.mode ≠ "absolute") :
    move_mouse exec append project ts x y mode =
      (.error "mode must be \x27absolute\x27 or \x27relative\x27", []) ∧
    click exec append project ts button count =
      (.error "button must be left/middle/right", []) ∧
    (runActionsStep exec i a).2.1 = [clickCmd a.count 1] ∧
    (runActionsStep exec i b).2.1 = [moveCmdRel b.x b.y] := by
  refine ⟨?_, ?_, ?_, ?_⟩
  · simp only [move_mouse, if_neg hmode.1, if_neg hmode.2]
  · rw [click, pyDictGet_button_none button hbutton.1 hbutton.2.1 hbutton.2.2]
  · simp only [runActionsStep, ha.1, Option.some.injEq]
    rw [pyDictGet_button_none a.button ha.2.1 ha.2.2.1 ha.2.2.2]
    simp only [Option.getD_none]
    cases hx : exec (clickCmd a.count 1) <;> simp [runStepRemote, hx]
  · simp only [runActionsStep, hb.1, Option.some.injEq]
    rw [if_neg hb.2]
    cases hx : exec (moveCmdRel b.x b.y) <;> simp [runStepRemote, hx]

theorem unknown_mode_button_validation_witness :
    move_mouse execOk appendOk none "ts3" 5 6 "diag" =
      (.error "mode must be \x27absolute\x27 or \x27relative\x27", []) ∧
    click execOk appendOk none "ts3" "bogus" 2 =
      (.error "button must be left/middle/right", []) ∧
    (runActionsStep execOk 0 { action := some "click", button := "bogus" }).2.1 =
      [clickCmd 1 1] ∧
    (runActionsStep execOk 0 { action := some "move_mouse", mode := "bogus" }).2.1 =
      [moveCmdRel 0 0] :=
  unknown_mode_button_validation execOk appendOk none "ts3" 5 6 2 "diag" "bogus" 0
    { action := some "click", button := "bogus" }
    { action := some "move_mouse", mode := "bogus" }
    (by exact ⟨by decide, by decide⟩)
    (by exact ⟨by decide, by decide, by decide⟩)
    (by exact ⟨rfl, by decide, by decide, by decide⟩)
    (by exact ⟨rfl, by decide⟩)

/-- C8: ssh_execute never surfaces a bare raised error.  A command that
exits nonzero without raising yields an in-band report containing its
stderr and its exit code, and any raised exception is converted into an
Error executing command outcome string. -/
theorem ssh_execute_in_band (run : String → Except String RunResult)
    (command : String) (r : RunResult)
    (h1 : run command = .ok r) (h2 : r.returncode ≠ 0) :
    (∃ a b, ssh_execute run command = a ++ r.stderr ++ b) ∧
    (∃ a, ssh_execute run command =
      a ++ ("EXIT CODE: " ++ toString r.returncode)) ∧
    (∀ c e, run c = .error e →
      ssh_execute run c = "Error executing command: " ++ e) := by
  have hstep : ∀ c e, run c = .error e →
      ssh_execute run c = "Error executing command: " ++ e := by
    intro c e hce
    simp [ssh_execute, hce]
  by_cases ho : r.stdout = ""
  · by_cases he : r.stderr = ""
    · have hout : ssh_execute run command = "EXIT CODE: " ++ toString r.returncode := by
        simp [ssh_execute, h1, ho, he, h2, String.intercalate, String.intercalate.go]
      refine ⟨⟨"EXIT CODE: " ++ toString r.returncode, "", ?_⟩, ⟨"", ?_⟩, hstep⟩
      · rw [hout, he] <;> simp
      · rw [hout] <;> simp
    · have hout : ssh_execute run command =
          (("STDERR:\n" ++ r.stderr) ++ "\n\n") ++ ("EXIT CODE: " ++ toString r.returncode) := by
        simp [ssh_execute, h1, ho, he, h2, String.intercalate, String.intercalate.go]
      refine ⟨⟨"STDERR:\n", "\n\n" ++ ("EXIT CODE: " ++ toString r.returncode), ?_⟩,
        ⟨"STDERR:\n" ++ r.stderr ++ "\n\n", ?_⟩, hstep⟩
      · rw [hout] <;> simp only [String.append_assoc] <;> rfl
      · rw [hout] <;> simp only [String.append_assoc] <;> rfl
  · by_cases he : r.stderr = ""
    · have hout : ssh_execute run command =
          (("STDOUT:\n" ++ r.stdout) ++ "\n\n") ++ ("EXIT CODE: " ++ toString r.returncode) := by
        simp [ssh_execute, h1, ho, he, h2, String.intercalate, String.intercalate.go]
      refine ⟨⟨ssh_execute run command, "", ?_⟩,
        ⟨"STDOUT:\n" ++ r.stdout ++ "\n\n", ?_⟩, hstep⟩
      · rw [he] <;> simp
      · rw [hout] <;> simp only [String.append_assoc] <;> rfl
    · have hout : ssh_execute run command =
          (((("STDOUT:\n" ++ r.stdout) ++ "\n\n") ++ ("STDERR:\n" ++ r.stderr)) ++ "\n\n") ++
            ("EXIT CODE: " ++ toString r.returncode) := by
        simp [ssh_execute, h1, ho, he, h2, String.intercalate, String.intercalate.go]
      refine ⟨⟨"STDOUT:\n" ++ r.stdout ++ "\n\n" ++ "STDERR:\n",
        "\n\n" ++ ("EXIT CODE: " ++ toString r.returncode), ?_⟩,
        ⟨"STDOUT:\n" ++ r.stdout ++ "\n\n" ++ "STDERR:\n" ++ r.stderr ++ "\n\n", ?_⟩, hstep⟩
      · rw [hout] <;> simp only [String.append_assoc] <;> rfl
      · rw [hout] <;> simp only [String.append_assoc] <;> rfl

theorem ssh_execute_in_band_witness :
    (∃ a b, ssh_execute runStub "false" =
      a ++ ({ stdout := "", stderr := "boom", returncode := 1 : RunResult }).stderr ++ b) ∧
    (∃ a, ssh_execute runStub "false" =
      a ++ ("EXIT CODE: " ++ toString ({ stdout := "", stderr := "boom", returncode := 1 : RunResult }).returncode)) ∧
    (∀ c e, runStub c = .error e →
      ssh_execute runStub c = "Error executing command: " ++ e) :=
  ssh_execute_in_band runStub "false"
    { stdout := "", stderr := "boom", returncode := 1 } rfl (by decide)
theorem runActionsStep_entry_shape (exec : String → Except String String) (i : Nat)
    (a : ActionDef) : ∃ v, (runActionsStep exec i a).1 = entryNum i ++ v := by
  unfold runActionsStep runStepRemote
  split_ifs <;> (try split) <;> (simp only [errorEntry, String.append_assoc]) <;>
    exact ⟨_, rfl⟩

theorem runStepRemote_error_fmt (exec : String → Except String String) (i : Nat)
    (kind entryOk cmd : String)
    (h : (runStepRemote exec i kind entryOk cmd).2.2 = true) :
    ∃ e, (runStepRemote exec i kind entryOk cmd).1 = errorEntry i kind e := by
  unfold runStepRemote at h ⊢
  cases hx : exec cmd with
  | ok o => rw [hx] at h; simp at h
  | error e => exact ⟨e, rfl⟩

theorem runActionsStep_error_format (exec : String → Except String String) (i : Nat)
    (a : ActionDef) (h : (runActionsStep exec i a).2.2 = true) :
    ∃ e, (runActionsStep exec i a).1 = errorEntry i (pyOptStr a.action) e := by
  unfold runActionsStep at h ⊢
  split_ifs at h ⊢ with h1 h2 h3 h4 h5 h6
  · rw [h1]; exact runStepRemote_error_fmt exec i _ _ _ h
  · rw [h2]; exact runStepRemote_error_fmt exec i _ _ _ h
  · rw [h3]; exact runStepRemote_error_fmt exec i _ _ _ h
  · rw [h4]; exact runStepRemote_error_fmt exec i _ _ _ h
  · rw [h4]; exact runStepRemote_error_fmt exec i _ _ _ h

theorem runActionsAux_failstop (exec : String → Except String String)
    (actions : List ActionDef) :
    ∀ (i kf : Nat), kf < actions.length →
      (∀ j a, j < kf → actions[j]? = some a →
        (runActionsStep exec (i + j) a).2.2 = false) →
      (∀ a, actions[kf]? = some a → (runActionsStep exec (i + kf) a).2.2 = true) →
      runActionsAux exec i actions = runActionsAux exec i (actions.take (kf + 1)) ∧
      (runActionsAux exec i actions).1.length = kf + 1 ∧
      (∀ j a, j ≤ kf → actions[j]? = some a →
        (runActionsAux exec i actions).1[j]? = some (runActionsStep exec (i + j) a).1) := by
  induction actions with
  | nil => intro i kf hk _ _; simp at hk
  | cons a rest ih =>
    intro i kf hk hpre hfail
    cases kf with
    | zero =>
      have hf : (runActionsStep exec (i + 0) a).2.2 = true := hfail a List.getElem?_cons_zero
      rw [Nat.add_zero] at hf
      refine ⟨?_, ?_, ?_⟩
      · simp [runActionsAux, hf]
      · simp [runActionsAux, hf]
      · intro j b hj hb
        interval_cases j
        simp only [List.getElem?_cons_zero, Option.some.injEq] at hb
        subst hb
        simp [runActionsAux, hf]
    | succ kf =>
      have h0 : (runActionsStep exec (i + 0) a).2.2 = false := hpre 0 a (Nat.succ_pos kf) List.getElem?_cons_zero
      rw [Nat.add_zero] at h0
      obtain ⟨ihEq, ihLen, ihIdx⟩ := ih (i + 1) kf (by simpa using hk)
        (fun j b hj hb => by
          have hx := hpre (j + 1) b (Nat.succ_lt_succ hj) (by simpa using hb)
          rwa [show i + (j + 1) = i + 1 + j by omega] at hx)
        (fun b hb => by
          have hx := hfail b (by simpa using hb)
          rwa [show i + (kf + 1) = i + 1 + kf by omega] at hx)
      refine ⟨?_, ?_, ?_⟩
      · simp only [runActionsAux, h0, List.take_succ_cons]
        rw [ihEq]
      · simp only [runActionsAux, h0]
        simp [ihLen]
      · intro j b hj hb
        cases j with
        | zero =>
          simp only [List.getElem?_cons_zero, Option.some.injEq] at hb
          subst hb
          simp [runActionsAux, h0]
        | succ j =>
          simp only [List.getElem?_cons_succ] at hb
          have hr := ihIdx j b (Nat.le_of_succ_le_succ hj) hb
          simp only [runActionsAux, h0]
          simpa [show i + 1 + j = i + (j + 1) by omega] using hr

/-- C1: when element kf (0-indexed; k = kf + 1 in 1-indexed terms) of a
run_actions batch is the first on which execution raises — every earlier
element succeeds or is an unknown kind — the batch behaves exactly as if
truncated after that element (same summary, same executed remote commands:
nothing after it is executed or reported), the result holds exactly kf + 1
entries in submission order, every entry up to kf is numbered with its
1-indexed position, and the kf-th entry is the error entry for that
element. -/
theorem run_actions_fail_stop (exec : String → Except String String)
    (actions : List ActionDef) (kf : Nat) (hk : kf < actions.length)
    (hpre : ∀ j a, j < kf → actions[j]? = some a →
      (runActionsStep exec j a).2.2 = false)
    (hfail : ∀ a, actions[kf]? = some a → (runActionsStep exec kf a).2.2 = true) :
    run_actions exec actions = run_actions exec (actions.take (kf + 1)) ∧
    (runActionsAux exec 0 actions).1.length = kf + 1 ∧
    (∀ j a, j ≤ kf → actions[j]? = some a →
      ∃ v, (runActionsAux exec 0 actions).1[j]? = some (entryNum j ++ v)) ∧
    (∀ a, actions[kf]? = some a →
      ∃ e, (runActionsAux exec 0 actions).1[kf]? =
        some (errorEntry kf (pyOptStr a.action) e)) := by
  have hpre0 : ∀ j a, j < kf → actions[j]? = some a →
      (runActionsStep exec (0 + j) a).2.2 = false := by
    intro j a hj ha
    rw [Nat.zero_add]
    exact hpre j a hj ha
  have hfail0 : ∀ a, actions[kf]? = some a →
      (runActionsStep exec (0 + kf) a).2.2 = true := by
    intro a ha
    rw [Nat.zero_add]
    exact hfail a ha
  obtain ⟨hEq, hLen, hIdx⟩ := runActionsAux_failstop exec actions 0 kf hk hpre0 hfail0
  refine ⟨?_, hLen, ?_, ?_⟩
  · unfold run_actions
    rw [hEq]
  · intro j a hj ha
    have h := hIdx j a hj ha
    rw [Nat.zero_add] at h
    obtain ⟨v, hv⟩ := runActionsStep_entry_shape exec j a
    exact ⟨v, by rw [h, hv]⟩
  · intro a ha
    have h := hIdx kf a le_rfl ha
    rw [Nat.zero_add] at h
    obtain ⟨e, he⟩ := runActionsStep_error_format exec kf a (hfail a ha)
    exact ⟨e, by rw [h, he]⟩

theorem run_actions_fail_stop_witness :
    run_actions execFailClick batchC1 = run_actions execFailClick (batchC1.take 3) ∧
    (runActionsAux execFailClick 0 batchC1).1.length = 3 ∧
    (∀ j a, j ≤ 2 → batchC1[j]? = some a →
      ∃ v, (runActionsAux execFailClick 0 batchC1).1[j]? = some (entryNum j ++ v)) ∧
    (∀ a, batchC1[2]? = some a →
      ∃ e, (runActionsAux execFailClick 0 batchC1).1[2]? =
        some (errorEntry 2 (pyOptStr a.action) e)) := by
  refine run_actions_fail_stop execFailClick batchC1 2 (by decide) ?_ ?_
  · intro j a hj ha
    interval_cases j
    · simp only [batchC1, List.getElem?_cons_zero, Option.some.injEq] at ha
      subst ha
      decide
    · simp only [batchC1, List.getElem?_cons_succ, List.getElem?_cons_zero,
        Option.some.injEq] at ha
      subst ha
      decide
  · intro a ha
    simp only [batchC1, List.getElem?_cons_succ, List.getElem?_cons_zero,
      Option.some.injEq] at ha
    subst ha
    decide

/-- C4: an element with an unrecognized action kind produces a non-fatal
UNKNOWN ACTION entry and the batch continues with the subsequent elements;
in particular the batch with an unknown kind followed by typing hi yields
exactly two entries, the unknown-action entry and the successful type_text
entry, neither an error. -/
theorem run_actions_unknown_nonfatal (exec : String → Except String String)
    (i : Nat) (a : ActionDef) (rest : List ActionDef) (out : String)
    (hu : a.action ≠ some "press_keys" ∧ a.action ≠ some "type_text" ∧
      a.action ≠ some "click" ∧ a.action ≠ some "move_mouse" ∧
      a.action ≠ some "wait")
    (hexec : exec typeHiCmd = .ok out) :
    runActionsAux exec i (a :: rest) =
      ((entryNum i ++ "UNKNOWN ACTION: " ++ pyOptStr a.action) ::
        (runActionsAux exec (i + 1) rest).1,
       (runActionsAux exec (i + 1) rest).2) ∧
    run_actions exec [adUnknown, adTypeHi] =
      ("Executed 2 actions:\n1. UNKNOWN ACTION: bogus\n2. type_text (2 chars)",
       [typeHiCmd]) := by
  constructor
  · have hstep : runActionsStep exec i a =
        (entryNum i ++ "UNKNOWN ACTION: " ++ pyOptStr a.action, [], false) := by
      unfold runActionsStep
      rw [if_neg hu.1, if_neg hu.2.1, if_neg hu.2.2.1, if_neg hu.2.2.2.1,
        if_neg hu.2.2.2.2]
    simp [runActionsAux, hstep]
  · have h1 : runActionsStep exec 0 adUnknown =
        ("1. UNKNOWN ACTION: bogus", [], false) := rfl
    have h2 : runActionsStep exec 1 adTypeHi =
        ("2. type_text (2 chars)", [typeHiCmd], false) := by
      unfold runActionsStep runStepRemote adTypeHi
      rw [show typeCmd (pyEscapeQuotes "hi") = typeHiCmd from rfl]
      simp only [hexec]
      rfl
    simp only [run_actions, runActionsAux, h1, h2]
    rfl

theorem run_actions_unknown_nonfatal_witness :
    runActionsAux execOk 0 (adUnknown :: []) =
      ((entryNum 0 ++ "UNKNOWN ACTION: " ++ pyOptStr adUnknown.action) ::
        (runActionsAux execOk (0 + 1) []).1,
       (runActionsAux execOk (0 + 1) []).2) ∧
    run_actions execOk [adUnknown, adTypeHi] =
      ("Executed 2 actions:\n1. UNKNOWN ACTION: bogus\n2. type_text (2 chars)",
       [typeHiCmd]) :=
  run_actions_unknown_nonfatal execOk 0 adUnknown [] ""
    ⟨by decide, by decide, by decide, by decide, by decide⟩ rfl

/-- C6: saving the advice note Title with body Body into an empty advice
directory and reading all advice back yields exactly one entry whose title
is Title and whose content is Body — the round-trip through the on-disk
advice file format, for any creation timestamp. -/
theorem advice_roundtrip (ts : String) :
    get_all_advice [save_advice ts "Title" "Body"] =
      [{ title := "Title", content := "Body", file := ts ++ "_Title.md" }] := by
  have hsave : save_advice ts "Title" "Body" =
      (ts ++ "_Title.md", "# Title\n\nBody\n") := by
    simp only [save_advice, String.append_assoc]
    rfl
  rw [hsave]
  have hmd : pyEndsWith (ts ++ "_Title.md") ".md" = true :=
    pyEndsWith_append ts "_Title.md" ".md" (by decide)
  unfold get_all_advice
  simp only [List.filter, hmd]
  simp only [pySortFiles, List.foldr, pyInsertFile, List.map]
  rfl

/-- C10: the title extraction of get_all_advice removes every leading hash
and space character of the first line, not just one hash-space prefix —
the lstrip over the two-character cut set absorbs the written heading
prefix and keeps eating into the stored title — so saving a note titled
with a double hash (here the title hash hash space Notes) and reading it
back yields the title Notes, not the saved title verbatim; the general
first clause states the absorption for every stored title. -/
theorem advice_title_strips_leading (ts t : String) :
    pyLstripHS ("# " ++ t) = pyLstripHS t ∧
    get_all_advice [save_advice ts "## Notes" "Body"] =
      [{ title := "Notes", content := "Body", file := ts ++ "___ Notes.md" }] := by
  constructor
  · unfold pyLstripHS
    rw [String.data_append]
    rfl
  · have hsave : save_advice ts "## Notes" "Body" =
        (ts ++ "___ Notes.md", "# ## Notes\n\nBody\n") := by
      simp only [save_advice, String.append_assoc]
      rfl
    rw [hsave]
    have hmd : pyEndsWith (ts ++ "___ Notes.md") ".md" = true :=
      pyEndsWith_append ts "___ Notes.md" ".md" (by decide)
    unfold get_all_advice
    simp only [List.filter, hmd]
    simp only [pySortFiles, List.foldr, pyInsertFile, List.map]
    rfl

/-- C7 counterexample: a log line whose level tag was written in lowercase
is never matched by the filter — filtering the lowercase-tagged log for
error reports no entries even though the levels agree up to case — and a
limit of zero does not return zero lines: the negative-start slice quirk
returns every line. -/
theorem read_logs_counterexample :
    project_read_logs (some lowerLevelLog) 50 "error" =
      "No log entries found with level error." ∧
    project_read_logs (some "a\nb") 0 "" =
      "Log entries (2 of 2 total):\n\na\nb" := by
  exact ⟨rfl, rfl⟩

/-- C7 amended: for a limit n of at least 1 and no filter,
project_read_logs returns exactly the last min(n, total) lines in their
original order, rendered after the counted header; the level filter keeps
exactly the lines containing the bracketed UPPERCASED filter literally, so
any-case filters match uppercase logged levels (the spec example of a
five-entry log with one ERROR line filtered by lowercase error returns
exactly that line) but lowercase logged levels are never matched; and a
missing log file yields the explicit no-entries message rather than an
error. -/
theorem read_logs_amended (c f : String) (n : Int) (hn : 1 ≤ n) (hf : f ≠ "") :
    (∃ pre, readLogsAll c = pre ++ readLogsRecent c n) ∧
    (readLogsRecent c n).length = min n.toNat (readLogsAll c).length ∧
    project_read_logs (some c) n "" =
      "Log entries (" ++ toString (readLogsRecent c n).length ++ " of " ++
        toString (readLogsAll c).length ++ " total):\n\n" ++
        String.intercalate "\n" (readLogsRecent c n) ∧
    project_read_logs none n f = "No log entries yet." ∧
    project_read_logs (some fiveLineLog) 50 "error" =
      "Log entries (1 of 1 total):\n\n[t3] [ERROR] boom" := by
  have hallne : readLogsAll c ≠ [] := pySplitNewline_ne_nil _
  have hlenpos : 0 < (readLogsAll c).length := List.length_pos.mpr hallne
  have hrec : (∃ pre, readLogsAll c = pre ++ readLogsRecent c n) ∧
      (readLogsRecent c n).length = min n.toNat (readLogsAll c).length := by
    unfold readLogsRecent
    by_cases hc : ((readLogsAll c).length : Int) > n
    · rw [if_pos hc]
      unfold pySliceFromNeg
      rw [if_pos (by omega : (0 : Int) < n)]
      constructor
      · exact ⟨_, (List.take_append_drop _ _).symm⟩
      · rw [List.length_drop]
        omega
    · rw [if_neg hc]
      refine ⟨⟨[], rfl⟩, ?_⟩
      omega
  have hne2 : readLogsRecent c n ≠ [] := by
    intro h
    have h2 := hrec.2
    rw [h] at h2
    simp only [List.length_nil] at h2
    omega
  have hshape : project_read_logs (some c) n "" =
      (if readLogsRecent c n = [] then "No log entries found" ++ "" ++ "."
       else "Log entries (" ++ toString (readLogsRecent c n).length ++ " of " ++
         toString (readLogsAll c).length ++ " total):\n\n" ++
         String.intercalate "\n" (readLogsRecent c n)) := rfl
  refine ⟨hrec.1, hrec.2, ?_, rfl, rfl⟩
  rw [hshape, if_neg hne2]

theorem read_logs_amended_witness :
    (∃ pre, readLogsAll "a\nb\nc" = pre ++ readLogsRecent "a\nb\nc" 2) ∧
    (readLogsRecent "a\nb\nc" 2).length =
      min (2 : Int).toNat (readLogsAll "a\nb\nc").length ∧
    project_read_logs (some "a\nb\nc") 2 "" =
      "Log entries (" ++ toString (readLogsRecent "a\nb\nc" 2).length ++ " of " ++
        toString (readLogsAll "a\nb\nc").length ++ " total):\n\n" ++
        String.intercalate "\n" (readLogsRecent "a\nb\nc" 2) ∧
    project_read_logs none 2 "x" = "No log entries yet." ∧
    project_read_logs (some fiveLineLog) 50 "error" =
      "Log entries (1 of 1 total):\n\n[t3] [ERROR] boom" :=
  read_logs_amended "a\nb\nc" "x" 2 (by decide) (by decide)
